import Mathlib

/-!
Shallow embedding of the whisper-analysis repository:
the worker message listener in src/public/worker.js and the React
surface component in src/unnamed/part_000 (the App component).

Modelling conventions:
- JavaScript values flowing through JSON.parse are modelled by `JsonVal`.
- `Option JsonVal` models a possibly-undefined JavaScript value
  (`none` is `undefined`).
- A JavaScript exception escaping an expression is modelled by
  `Except Unit` (error is the thrown fault, its payload irrelevant here).
- Byte buffers (ArrayBuffer / Uint8Array) are `List Nat`.
- `fetch` is an environment-supplied function `String → Option Response`:
  `none` models a network rejection; an HTTP response with any status
  (success or not) is `some r`, since fetch resolves on non-success
  statuses as well.
-/

/-- Values produced by JSON.parse: the document domain of the engine
payload and of worker result messages. -/
inductive JsonVal where
  | null
  | bool (b : Bool)
  | num (n : Int)
  | str (s : String)
  | arr (elems : List JsonVal)
  | obj (fields : List (String × JsonVal))

/-- Field lookup in an object literal, first match wins. -/
def fieldLookup : List (String × JsonVal) → String → Option JsonVal
  | [], _ => none
  | (k, v) :: rest, key => if k = key then some v else fieldLookup rest key

/-- JavaScript property access `v.k` on a defined value: accessing a
property of `null` throws; an object yields its field or undefined;
other primitives yield undefined for the names used here. -/
def jsProp : JsonVal → String → Except Unit (Option JsonVal)
  | .null, _ => .error ()
  | .obj fs, k => .ok (fieldLookup fs k)
  | _, _ => .ok none

/-- The surface callback body `_.dr.text` applied to one payload entry
(src/unnamed/part_000, onMessage): reading `.text` of an undefined
`.dr` throws a TypeError. -/
def drTextOf (entry : JsonVal) : Except Unit (Option JsonVal) := do
  let dr ← jsProp entry "dr"
  match dr with
  | none => .error ()
  | some v => jsProp v "text"

mutual

/-- Element stringification used by `Array.prototype.join`: null maps to
the empty string, arrays join recursively with a comma. -/
def joinStr : JsonVal → String
  | .null => ""
  | .bool b => toString b
  | .num n => toString n
  | .str s => s
  | .obj _ => "[object Object]"
  | .arr es => joinArr es

/-- Comma-joined stringification of the elements of a nested array. -/
def joinArr : List JsonVal → String
  | [] => ""
  | [e] => joinStr e
  | e :: rest => joinStr e ++ "," ++ joinArr rest

end

/-- Join stringification of a possibly-undefined element: undefined maps
to the empty string, like null. -/
def joinElem : Option JsonVal → String
  | none => ""
  | some j => joinStr j

/-- Messages posted by the worker: `self.postMessage` with a status tag
and the parsed engine output (src/public/worker.js, lines 38-42). -/
structure OutMsg where
  status : String
  output : JsonVal

/-- Array.prototype.map with a callback that may throw: elements are
processed left to right and the first throw aborts the whole map. -/
def arrayMapJS {α β : Type} (f : α → Except Unit β) : List α → Except Unit (List β)
  | [] => .ok []
  | x :: xs =>
    match f x with
    | .error e => .error e
    | .ok y =>
      match arrayMapJS f xs with
      | .error e => .error e
      | .ok ys => .ok (y :: ys)

/-- The extraction expression `output.map(_ => _.dr.text).join(" ")` of
the surface listener (src/unnamed/part_000, line 33), applied to the
elements of the output array: throws when any entry has no `dr`. -/
def extractTranscript (es : List JsonVal) : Except Unit String :=
  match arrayMapJS drTextOf es with
  | .ok vals => .ok (String.intercalate " " (vals.map joinElem))
  | .error e => .error e

/-- The surface message listener `onMessage` (src/unnamed/part_000,
lines 31-36) as a transformer of the displayed `text` state: only a
message with status "complete" runs the extraction
`output.map(_ => _.dr.text).join(" ")`; if that extraction throws
(missing `dr`, or `output` not an array so `.map` is not callable),
`setText` is never reached and the state is unchanged. -/
def onMessage (prev : String) (m : OutMsg) : String :=
  if m.status = "complete" then
    match m.output with
    | .arr es =>
      match extractTranscript es with
      | .ok t => t
      | .error _ => prev
    | _ => prev
  else prev

/-- Displayed text after the surface has processed a sequence of worker
messages in delivery order. -/
def surfaceRun (prev : String) (msgs : List OutMsg) : String :=
  msgs.foldl onMessage prev

/-- Engine payload entry of the shape the surface actually consumes: an
object whose `dr` field is an object carrying a `text` field. -/
def drSegment (t : String) : JsonVal :=
  .obj [("dr", .obj [("text", .str t)])]

/-- The drag-and-drop payload: the `text/uri-list` datum and the dropped
file list. Files are opaque identifiers. -/
structure DropData where
  uriList : String
  files : List String

/-- URL.createObjectURL modelled as an injective tag on the file
identifier. -/
def createObjectURL (f : String) : String := "blob:" ++ f

/-- The drop handler `handleDrop` (src/unnamed/part_000, lines 19-26) as
a transformer of the `audioSrc` state: a non-empty file list wins and
its first file becomes an object URL; otherwise a truthy (non-empty)
uri-list string is used; otherwise the state is unchanged. -/
def handleDrop (dt : DropData) (prevSrc : String) : String :=
  match dt.files with
  | f :: _ => createObjectURL f
  | [] => if dt.uriList ≠ "" then dt.uriList else prevSrc

/-- An HTTP response that fetch resolved with: its status code and body
bytes. arrayBuffer() on it yields the body. -/
structure Response where
  status : Nat
  body : List Nat

/-- The fixed asset location list `model` (src/public/worker.js,
lines 3-11): weights, tokenizer, config, mel filters, in this order. -/
def model : List String :=
  [ "https://huggingface.co/openai/whisper-tiny/resolve/main/model.safetensors"
  , "model/tokenizer.json"
  , "model/config.json"
  , "model/mel_filters.safetensors" ]

/-- Steps of the asset-loading expression, in the order the worker
performs them: each fetch is issued synchronously by the map before the
inner Promise.all is awaited; each arrayBuffer conversion is issued
before the outer Promise.all is awaited. -/
inductive LEvent where
  | issue (i : Nat) (url : String)
  | awaitResponses
  | convert (i : Nat)
  | awaitBuffers
deriving DecidableEq

/-- Promise.all over a mapped list: resolves with every result in input
order, or rejects as a whole as soon as any element rejects (none). -/
def promiseAll {α β : Type} (f : α → Option β) : List α → Option (List β)
  | [] => some []
  | x :: xs =>
    match f x, promiseAll f xs with
    | some y, some ys => some (y :: ys)
    | _, _ => none

/-- The asset-loading expression of the worker (src/public/worker.js,
lines 14-20): all fetches are issued first, the responses are awaited
together, all buffer conversions are issued, the buffers are awaited
together. If any fetch rejects, the inner Promise.all rejects and no
buffer list is produced. The result keeps the input order: position i
holds the bytes of location i. -/
def loadAssets (fetchFn : String → Option Response) (locs : List String) :
    List LEvent × Option (List (List Nat)) :=
  let issues := locs.enum.map fun p => LEvent.issue p.1 p.2
  match promiseAll fetchFn locs with
  | none => (issues ++ [.awaitResponses], none)
  | some resps =>
      ( issues ++ [.awaitResponses]
          ++ ((List.range resps.length).map LEvent.convert) ++ [.awaitBuffers]
      , some (resps.map fun r => r.body) )

/-- The Decoder instance as constructed by the worker: its nine
positional constructor arguments (src/public/worker.js, lines 23-33).
The third buffer argument at the call site is the mel-filter buffer and
the fourth the config buffer. -/
structure Engine where
  weights : List Nat
  tokenizer : List Nat
  melFilters : List Nat
  config : List Nat
  flag1 : Bool
  flag2 : Bool
  flag3 : Bool
  opt1 : Option JsonVal
  opt2 : Option JsonVal

/-- The worker environment: the platform fetch, the wasm init outcome,
whether the Decoder constructor throws, the engine decode capability
(none models a throw) and JSON.parse (none models a parse fault). -/
structure WorkerEnv where
  fetchFn : String → Option Response
  initOk : Bool
  constructOk : Bool
  decodeFn : Engine → List Nat → Option String
  parseFn : String → Option JsonVal

/-- Observable steps of one run of the worker message listener. -/
inductive WEvent where
  | assetFetch (url : String)
  | initCall
  | constructCall
  | audioFetch (url : String)
  | decodeCall
  | post (status : String)
deriving DecidableEq

/-- The asset fetch events of one listener run: all four model
locations, always issued. -/
def assetEvents : List WEvent := model.map WEvent.assetFetch

/-- The Decoder construction call site (src/public/worker.js,
lines 23-33): positional arguments weights, tokenizer, mel filters,
config, then the fixed mode flags false, true, true, null, null. -/
def mkEngine (weights tokenizer mel_filters config : List Nat) : Engine :=
  ⟨weights, tokenizer, mel_filters, config, false, true, true, none, none⟩

/-- The worker message listener (src/public/worker.js, lines 13-43) run
on one decode request: load the four assets, await init, construct a
Decoder, fetch the audio, decode, parse, post a complete message. There
is no try/catch anywhere, so a failure at any step ends the run with no
message posted (the async listener rejection is unhandled). Returns the
event trace and the messages posted. -/
def handleMessage (env : WorkerEnv) (audioSrc : String) :
    List WEvent × List OutMsg :=
  match (loadAssets env.fetchFn model).2 with
  | none => (assetEvents, [])
  | some bufs =>
    match bufs with
    | [weights, tokenizer, config, mel_filters] =>
      if env.initOk then
        if env.constructOk then
          match env.fetchFn audioSrc with
          | none =>
              (assetEvents ++ [.initCall, .constructCall, .audioFetch audioSrc], [])
          | some resp =>
            match env.decodeFn (mkEngine weights tokenizer mel_filters config) resp.body with
            | none =>
                (assetEvents
                  ++ [.initCall, .constructCall, .audioFetch audioSrc, .decodeCall], [])
            | some data =>
              match env.parseFn data with
              | none =>
                  (assetEvents
                    ++ [.initCall, .constructCall, .audioFetch audioSrc, .decodeCall], [])
              | some out =>
                  (assetEvents
                    ++ [.initCall, .constructCall, .audioFetch audioSrc, .decodeCall,
                        .post "complete"],
                    [⟨"complete", out⟩])
        else (assetEvents ++ [.initCall, .constructCall], [])
      else (assetEvents ++ [.initCall], [])
    | _ => (assetEvents, [])

/-- Sequential processing of several decode requests: each listener run
completes before the next starts; traces and posted messages accumulate
in order. -/
def runRequests (env : WorkerEnv) : List String → List WEvent × List OutMsg
  | [] => ([], [])
  | src :: rest =>
    let r := handleMessage env src
    let rr := runRequests env rest
    (r.1 ++ rr.1, r.2 ++ rr.2)

/-- Number of asset fetches in a worker trace. -/
def assetFetchCount (tr : List WEvent) : Nat :=
  tr.countP fun e => match e with | .assetFetch _ => true | _ => false

/-- Number of Decoder construction attempts in a worker trace. -/
def constructCount (tr : List WEvent) : Nat :=
  tr.countP fun e => match e with | .constructCall => true | _ => false

/-!
Interleaving model for back-to-back requests. The listener is an async
function registered with addEventListener: each message starts its own
run, and runs give up control at every await. A run therefore splits
into the atomic segments below, executed in this order; between
segments other runs may execute, because the relative completion order
of pending promises is not constrained by the program.
-/

/-- Atomic segments of one listener run, split at its await points
(src/public/worker.js, lines 13-43). The engine decode call and the
result postMessage are one synchronous segment. -/
inductive HSeg where
  | issueAssetFetches
  | issueBufferConversions
  | wasmInit
  | constructAndFetchAudio
  | convertAudioBuffer
  | decodeAndPost
deriving DecidableEq

/-- Segment order of one listener run. -/
def handlerSegs : List HSeg :=
  [ .issueAssetFetches, .issueBufferConversions, .wasmInit,
    .constructAndFetchAudio, .convertAudioBuffer, .decodeAndPost ]

/-- A schedule of two back-to-back requests: at each step either the
first run (false) or the second run (true) executes its next segment. A
schedule is any merge of the two segment sequences in which each run
executes all its segments in order and the first message's run starts
before the second's, message delivery being ordered. -/
def ScheduleValid (s : List Bool) : Prop :=
  s.count false = handlerSegs.length ∧
  s.count true = handlerSegs.length ∧
  s.indexOf false < s.indexOf true

/-- Position in a schedule at which run b executes its segment number j
(counting from zero), if it does. -/
def segPos (s : List Bool) (b : Bool) (j : Nat) : Option Nat :=
  ((s.enum.filter fun p => p.2 == b).get? j).map fun p => p.1

/-- Position at which run b executes its decode-and-post segment. -/
def decodePostPos (s : List Bool) (b : Bool) : Option Nat :=
  segPos s b (handlerSegs.indexOf HSeg.decodeAndPost)

/-- Serialization property of a schedule: both runs reach their
decode-and-post segment and the first run posts its result strictly
before the second run begins its engine decode. -/
def firstPostsBeforeSecondDecodes (s : List Bool) : Prop :=
  match decodePostPos s false, decodePostPos s true with
  | some i, some j => i < j
  | _, _ => False

/-- A schedule in which the second run overtakes the first: the first
run suspends at its initial await and the second runs to completion
before the first resumes. -/
def overtakeSchedule : List Bool :=
  false :: (List.replicate 6 true ++ List.replicate 5 false)

/-!
Concrete environments used to evaluate the worker on closed inputs.
-/

/-- Environment in which every step succeeds; the parsed engine output
is one dr-segment with text "test". -/
def envAllOk : WorkerEnv :=
  { fetchFn := fun _ => some ⟨200, [0]⟩
  , initOk := true
  , constructOk := true
  , decodeFn := fun _ _ => some "payload"
  , parseFn := fun _ => some (.arr [drSegment "test"]) }

/-- Environment in which the url "bad.wav" rejects at fetch and
everything else succeeds. -/
def envAudioFail : WorkerEnv :=
  { envAllOk with
    fetchFn := fun u => if u = "bad.wav" then none else some ⟨200, [0]⟩ }

/-- Environment in which the config asset resolves with HTTP status 404
and everything else succeeds. -/
def envStatus404 : WorkerEnv :=
  { envAllOk with
    fetchFn := fun u =>
      if u = "model/config.json" then some ⟨404, [9]⟩ else some ⟨200, [0]⟩ }

/-- Environment in which every step succeeds and the parsed engine
output is one entry whose text sits under a result field, the shape the
specification describes, instead of under dr. -/
def envResultShape : WorkerEnv :=
  { envAllOk with
    parseFn := fun _ => some (.arr [.obj [("result", .obj [("text", .str "test")])]]) }

/-- Environment in which the tokenizer asset fetch rejects and
everything else succeeds. -/
def envAssetFail : WorkerEnv :=
  { envAllOk with
    fetchFn := fun u =>
      if u = "model/tokenizer.json" then none else some ⟨200, [0]⟩ }

/-- Promise.all rejects as soon as one mapped element rejects. -/
theorem promiseAll_eq_none_of_mem {α β : Type} {f : α → Option β} {l : List α}
    {a : α} (ha : a ∈ l) (hfa : f a = none) : promiseAll f l = none := by
  induction l with
  | nil => cases ha
  | cons x xs ih =>
    rcases List.mem_cons.1 ha with rfl | hmem
    · cases hrest : promiseAll f xs <;> simp [promiseAll, hfa, hrest]
    · cases hfx : f x <;> simp [promiseAll, ih hmem, hfx]

/-- Promise.all resolves when every mapped element resolves, with the
results in input order. -/
theorem promiseAll_eq_some_of_isSome {α β : Type} {f : α → Option β} :
    ∀ {l : List α}, (∀ a ∈ l, (f a).isSome) →
      ∃ r, promiseAll f l = some r ∧ r.length = l.length ∧
        ∀ (i : Nat) (a : α) (b : β),
          l[i]? = some a → f a = some b → r[i]? = some b := by
  intro l
  induction l with
  | nil =>
    intro _
    refine ⟨[], rfl, rfl, ?_⟩
    intro i a b h
    simp at h
  | cons x xs ih =>
    intro h
    obtain ⟨y, hy⟩ := Option.isSome_iff_exists.mp (h x (List.mem_cons_self x xs))
    obtain ⟨r, hr, hlen, hidx⟩ := ih fun a ha => h a (List.mem_cons_of_mem x ha)
    refine ⟨y :: r, ?_, by simp [hlen], ?_⟩
    · simp [promiseAll, hy, hr]
    · intro i a b hget hfab
      match i with
      | 0 =>
        simp at hget
        subst hget
        rw [hy] at hfab
        injection hfab with hb
        subst hb
        simp
      | Nat.succ n =>
        simp at hget ⊢
        exact hidx n a b hget hfab

/-- Every listener run issues exactly the four model asset fetches,
whatever the environment does. -/
theorem assetFetchCount_handleMessage (env : WorkerEnv) (src : String) :
    assetFetchCount (handleMessage env src).1 = 4 := by
  unfold handleMessage
  repeat' split
  all_goals rfl

/-- Appending traces adds their asset fetch counts. -/
theorem assetFetchCount_append (l1 l2 : List WEvent) :
    assetFetchCount (l1 ++ l2) = assetFetchCount l1 + assetFetchCount l2 :=
  List.countP_append _ _ _

/-- Appending traces adds their construction counts. -/
theorem constructCount_append (l1 l2 : List WEvent) :
    constructCount (l1 ++ l2) = constructCount l1 + constructCount l2 :=
  List.countP_append _ _ _

/-- When every fetch resolves and wasm init succeeds, a listener run
attempts engine construction exactly once. -/
theorem constructCount_handleMessage (env : WorkerEnv) (src : String)
    (hfetch : ∀ u, (env.fetchFn u).isSome) (hinit : env.initOk = true) :
    constructCount (handleMessage env src).1 = 1 := by
  obtain ⟨r0, h0⟩ := Option.isSome_iff_exists.mp
    (hfetch "https://huggingface.co/openai/whisper-tiny/resolve/main/model.safetensors")
  obtain ⟨r1, h1⟩ := Option.isSome_iff_exists.mp (hfetch "model/tokenizer.json")
  obtain ⟨r2, h2⟩ := Option.isSome_iff_exists.mp (hfetch "model/config.json")
  obtain ⟨r3, h3⟩ := Option.isSome_iff_exists.mp (hfetch "model/mel_filters.safetensors")
  have hload : (loadAssets env.fetchFn model).2 =
      some [r0.body, r1.body, r2.body, r3.body] := by
    simp [loadAssets, promiseAll, model, h0, h1, h2, h3]
  unfold handleMessage
  rw [hload]
  simp only [hinit]
  repeat' split
  all_goals first | rfl | simp_all

/-- The transcript extraction succeeds on a list of dr-segments and
yields exactly their texts, space-joined. -/
theorem extractTranscript_drSegments (texts : List String) :
    extractTranscript (texts.map drSegment) =
      .ok (String.intercalate " " texts) := by
  have hmap : arrayMapJS drTextOf (texts.map drSegment) =
      .ok (texts.map fun t => some (.str t)) := by
    induction texts with
    | nil => rfl
    | cons t ts ih =>
      have hx : drTextOf (drSegment t) = .ok (some (.str t)) := rfl
      simp [arrayMapJS, hx, ih]
  have hjoin : ∀ l : List String,
      (l.map fun t => some (JsonVal.str t)).map joinElem = l := by
    intro l
    induction l with
    | nil => rfl
    | cons t ts ih => exact congrArg (List.cons t) ih
  rw [extractTranscript, hmap]
  show Except.ok
      (String.intercalate " " ((texts.map fun t => some (JsonVal.str t)).map joinElem)) =
    Except.ok (String.intercalate " " texts)
  rw [hjoin texts]


/-- C1 (as claimed, refuted): with every step succeeding, two
sequential decode requests construct the engine twice and issue eight
asset fetches, so construction is not at-most-once per worker lifetime
and the asset loader is not invoked exactly once. -/
theorem c1_cex :
    ¬ (constructCount (runRequests envAllOk ["a.wav", "b.wav"]).1 ≤ 1) ∧
    assetFetchCount (runRequests envAllOk ["a.wav", "b.wav"]).1 = 8 :=
  ⟨by decide, rfl⟩

/-- C1 (amended): nothing is cached across requests. Every decode
request issues all four asset fetches (4N fetches for N sequential
requests), and when every fetch resolves and wasm init succeeds the
engine is constructed anew on every request (N constructions for N
requests). -/
theorem c1_thm (env : WorkerEnv) (reqs : List String)
    (hfetch : ∀ u, (env.fetchFn u).isSome) (hinit : env.initOk = true) :
    assetFetchCount (runRequests env reqs).1 = 4 * reqs.length ∧
    constructCount (runRequests env reqs).1 = reqs.length := by
  induction reqs with
  | nil => exact ⟨rfl, rfl⟩
  | cons src rest ih =>
    have h1 := assetFetchCount_handleMessage env src
    have h2 := constructCount_handleMessage env src hfetch hinit
    simp only [runRequests]
    constructor
    · rw [assetFetchCount_append, h1, ih.1, List.length_cons]
      omega
    · rw [constructCount_append, h2, ih.2, List.length_cons]
      omega

/-- C1 witness: the amended statement evaluated on two concrete
requests in the all-success environment. -/
theorem c1_witness :
    assetFetchCount (runRequests envAllOk ["a.wav", "b.wav"]).1 =
      4 * (["a.wav", "b.wav"] : List String).length ∧
    constructCount (runRequests envAllOk ["a.wav", "b.wav"]).1 =
      (["a.wav", "b.wav"] : List String).length :=
  c1_thm envAllOk ["a.wav", "b.wav"] (fun _ => rfl) rfl

/-- C2 (as claimed, refuted): in the environment where the audio fetch
for bad.wav rejects, the request produces no result message at all: the
failure is not caught and converted into a terminal non-complete
message, the request is dropped silently. -/
theorem c2_cex :
    envAudioFail.fetchFn "bad.wav" = none ∧
    (handleMessage envAudioFail "bad.wav").2 = [] :=
  ⟨rfl, rfl⟩

/-- C2 (amended): the worker catches nothing. A listener run posts
either no message at all (some step failed and the rejection is
unhandled) or exactly one message, and that message has status
complete; no non-complete status is ever emitted. -/
theorem c2_thm (env : WorkerEnv) (src : String) :
    (handleMessage env src).2 = [] ∨
      ∃ out, (handleMessage env src).2 = [⟨"complete", out⟩] := by
  unfold handleMessage
  repeat' split
  all_goals first | exact Or.inl rfl | exact Or.inr ⟨_, rfl⟩

/-- C3 (as claimed, refuted): when the engine payload is one entry
whose text sits under a result field, the worker does post a complete
message carrying that payload, but the displayed transcript is not
"test": the extraction reads the dr field, throws on its absence, and
leaves the displayed text unchanged (empty here). -/
theorem c3_cex :
    (handleMessage envResultShape "a.wav").2 =
      [⟨"complete", .arr [.obj [("result", .obj [("text", .str "test")])]]⟩] ∧
    surfaceRun "" (handleMessage envResultShape "a.wav").2 = "" ∧
    surfaceRun "" (handleMessage envResultShape "a.wav").2 ≠ "test" :=
  ⟨rfl, rfl, by decide⟩

/-- C3 (amended): the transcript is extracted from the text field of
each entry's nested dr object, not a result object: whenever a request
yields a complete message whose payload is one dr-segment with text
"test", the surface displays "test" whatever was displayed before. -/
theorem c3_thm (env : WorkerEnv) (src prev : String)
    (h : (handleMessage env src).2 = [⟨"complete", .arr [drSegment "test"]⟩]) :
    surfaceRun prev (handleMessage env src).2 = "test" := by
  rw [h]
  rfl

/-- C3 witness: the amended statement evaluated in the all-success
environment, whose engine payload is one dr-segment with text "test". -/
theorem c3_witness :
    (handleMessage envAllOk "a.wav").2 = [⟨"complete", .arr [drSegment "test"]⟩] ∧
    surfaceRun "previous" (handleMessage envAllOk "a.wav").2 = "test" :=
  ⟨rfl, c3_thm envAllOk "a.wav" "previous" rfl⟩

/-- C4 (confirmed): for every ordered list of segment texts delivered
in a complete result, the displayed transcript is exactly the texts
joined with a single space in order; in particular Hello and world give
"Hello world", a single Hi gives "Hi" with no surrounding spaces, and
the empty payload gives the empty string rather than an error. -/
theorem c4_thm (prev : String) (texts : List String) :
    onMessage prev ⟨"complete", .arr (texts.map drSegment)⟩ =
      String.intercalate " " texts ∧
    onMessage prev ⟨"complete", .arr [drSegment "Hello", drSegment "world"]⟩ =
      "Hello world" ∧
    onMessage prev ⟨"complete", .arr [drSegment "Hi"]⟩ = "Hi" ∧
    onMessage prev ⟨"complete", .arr ([] : List JsonVal)⟩ = "" := by
  refine ⟨?_, rfl, rfl, rfl⟩
  have hext := extractTranscript_drSegments texts
  simp [onMessage, hext]

/-- C5 (as claimed, refuted): a non-success HTTP status is not treated
as a failure. With the config asset resolving with status 404, the load
still produces a full bundle whose third buffer is the 404 body, engine
construction is attempted, and the request completes normally. -/
theorem c5_cex :
    envStatus404.fetchFn "model/config.json" = some ⟨404, [9]⟩ ∧
    (loadAssets envStatus404.fetchFn model).2 = some [[0], [0], [9], [0]] ∧
    constructCount (handleMessage envStatus404 "a.wav").1 = 1 ∧
    (handleMessage envStatus404 "a.wav").2 =
      [⟨"complete", .arr [drSegment "test"]⟩] :=
  ⟨rfl, rfl, rfl, rfl⟩

/-- C5 (amended): if any of the four asset fetches fails with a network
rejection, the whole load fails with no partial bundle observable,
engine construction is not attempted, and no result message is posted;
however a non-success HTTP status does not count as a failure, and no
error value identifying the failed location is produced. -/
theorem c5_thm (env : WorkerEnv) (src u : String)
    (hu : u ∈ model) (hfail : env.fetchFn u = none) :
    (loadAssets env.fetchFn model).2 = none ∧
    constructCount (handleMessage env src).1 = 0 ∧
    (handleMessage env src).2 = [] := by
  have hp := promiseAll_eq_none_of_mem hu hfail
  have hl : (loadAssets env.fetchFn model).2 = none := by
    simp [loadAssets, hp]
  refine ⟨hl, ?_, ?_⟩
  · unfold handleMessage
    rw [hl]
    rfl
  · unfold handleMessage
    rw [hl]

/-- C5 witness: the amended statement evaluated in the environment
where the tokenizer fetch rejects. -/
theorem c5_witness :
    ("model/tokenizer.json" ∈ model) ∧
    envAssetFail.fetchFn "model/tokenizer.json" = none ∧
    ((loadAssets envAssetFail.fetchFn model).2 = none ∧
      constructCount (handleMessage envAssetFail "a.wav").1 = 0 ∧
      (handleMessage envAssetFail "a.wav").2 = []) :=
  ⟨.tail _ (.head _), rfl,
    c5_thm envAssetFail "a.wav" "model/tokenizer.json" (.tail _ (.head _)) rfl⟩

/-- C6 (confirmed): when every location fetch resolves, the loader
yields one buffer per location with position i holding the body of
location i, and its step trace is exactly: every fetch issued, then the
single await of all responses, then every conversion issued, then the
single await of all buffers — so all fetches are issued before any
response is consumed and all conversions complete before the loader
returns. -/
theorem c6_thm (fetchFn : String → Option Response) (locs : List String)
    (h : ∀ u ∈ locs, (fetchFn u).isSome) :
    ∃ bufs, (loadAssets fetchFn locs).2 = some bufs ∧
      bufs.length = locs.length ∧
      (∀ (i : Nat) (u : String) (r : Response),
        locs[i]? = some u → fetchFn u = some r → bufs[i]? = some r.body) ∧
      (loadAssets fetchFn locs).1 =
        (locs.enum.map fun p => LEvent.issue p.1 p.2) ++ [LEvent.awaitResponses]
          ++ ((List.range locs.length).map LEvent.convert)
          ++ [LEvent.awaitBuffers] := by
  obtain ⟨r, hr, hlen, hidx⟩ := promiseAll_eq_some_of_isSome h
  refine ⟨r.map (fun x => x.body), ?_, by simp [hlen], ?_, ?_⟩
  · simp [loadAssets, hr]
  · intro i u resp hu hresp
    have hri := hidx i u resp hu hresp
    simp [hri]
  · simp [loadAssets, hr, hlen]

/-- C6 witness: the confirmed statement evaluated on the four model
locations with a fetch answering every location. -/
theorem c6_witness :
    (∀ u ∈ model, ((fun v => some (Response.mk 200 [v.length])) u).isSome) ∧
    (∃ bufs,
      (loadAssets (fun v => some (Response.mk 200 [v.length])) model).2 = some bufs ∧
      bufs.length = model.length ∧
      (∀ (i : Nat) (u : String) (r : Response),
        model[i]? = some u →
          (fun v => some (Response.mk 200 [v.length])) u = some r →
          bufs[i]? = some r.body) ∧
      (loadAssets (fun v => some (Response.mk 200 [v.length])) model).1 =
        (model.enum.map fun p => LEvent.issue p.1 p.2) ++ [LEvent.awaitResponses]
          ++ ((List.range model.length).map LEvent.convert)
          ++ [LEvent.awaitBuffers]) :=
  ⟨fun _ _ => rfl, c6_thm _ model (fun _ _ => rfl)⟩

/-- C7 (as claimed, refuted): when the audio fetch for bad.wav rejects,
no result message at all is delivered (in particular no non-complete
status), and the immediately following successful request does re-fetch
the model assets: its trace contains all four asset fetches. -/
theorem c7_cex :
    envAudioFail.fetchFn "bad.wav" = none ∧
    (handleMessage envAudioFail "bad.wav").2 = [] ∧
    assetFetchCount (handleMessage envAudioFail "ok.wav").1 = 4 ∧
    (handleMessage envAudioFail "ok.wav").2 =
      [⟨"complete", .arr [drSegment "test"]⟩] :=
  ⟨rfl, rfl, rfl, rfl⟩

/-- C7 (amended): a request whose audio fetch rejects ends with no
result message (the fault is unhandled), and nothing survives for the
next request: every request, including the following one, issues all
four asset fetches again. -/
theorem c7_thm (env : WorkerEnv) (src : String)
    (hfail : env.fetchFn src = none) :
    (handleMessage env src).2 = [] ∧
    ∀ src2, assetFetchCount (handleMessage env src2).1 = 4 := by
  constructor
  · unfold handleMessage
    repeat' split
    all_goals first | rfl | simp_all
  · exact fun src2 => assetFetchCount_handleMessage env src2

/-- C7 witness: the amended statement evaluated in the environment
where the bad.wav audio fetch rejects. -/
theorem c7_witness :
    envAudioFail.fetchFn "bad.wav" = none ∧
    ((handleMessage envAudioFail "bad.wav").2 = [] ∧
      ∀ src2, assetFetchCount (handleMessage envAudioFail src2).1 = 4) :=
  ⟨rfl, c7_thm envAudioFail "bad.wav" rfl⟩

/-- C8 (as claimed, refuted): requests are not serialized. The schedule
in which the first run suspends at its initial await while the second
run executes to completion is a permitted interleaving of the two
listener runs, and in it the second request's decode-and-post segment
executes (position 6) before the first request's (position 11), so the
second engine invocation begins before the first result is emitted. -/
theorem c8_cex :
    ScheduleValid overtakeSchedule ∧
    ¬ firstPostsBeforeSecondDecodes overtakeSchedule := by
  constructor
  · unfold ScheduleValid
    decide
  · exact (show ¬ (11 < 6) by decide)

/-- C8 (amended): the async listener permits interleavings of two
back-to-back requests; in particular there is a valid schedule in which
the second request's engine decode runs strictly before the first
request's result message is posted. -/
theorem c8_thm :
    ∃ s, ScheduleValid s ∧
      ∃ i j, decodePostPos s true = some i ∧
        decodePostPos s false = some j ∧ i < j := by
  refine ⟨overtakeSchedule, ?_, 6, 11, ?_, ?_, ?_⟩
  · unfold ScheduleValid
    decide
  · rfl
  · rfl
  · decide

/-- C9 (confirmed): on a drop carrying at least one file, the selected
audio source becomes the object URL of the first dropped file, whatever
the uri-list datum holds; the uri-list URL is used only when no file
was dropped. -/
theorem c9_thm (dt : DropData) (prev : String) :
    (∀ f fs, dt.files = f :: fs → handleDrop dt prev = createObjectURL f) ∧
    (dt.files = [] → dt.uriList ≠ "" → handleDrop dt prev = dt.uriList) := by
  obtain ⟨url, files⟩ := dt
  constructor
  · intro f fs hf
    subst hf
    rfl
  · intro hf hurl
    subst hf
    simp [handleDrop, hurl]

/-- C9 witness: the confirmed statement evaluated on a drop carrying
both a file and a uri-list URL, and on a drop carrying only a URL. -/
theorem c9_witness :
    handleDrop ⟨"http://example.com/a.wav", ["song.mp3"]⟩ "" =
      createObjectURL "song.mp3" ∧
    handleDrop ⟨"http://example.com/a.wav", []⟩ "" = "http://example.com/a.wav" :=
  ⟨(c9_thm ⟨"http://example.com/a.wav", ["song.mp3"]⟩ "").1 "song.mp3" [] rfl,
    (c9_thm ⟨"http://example.com/a.wav", []⟩ "").2 rfl (by decide)⟩

/-- C10 (confirmed): a worker message whose status is not "complete"
leaves the displayed transcript unchanged; only a status equal to
"complete" can update it. -/
theorem c10_thm (prev status : String) (output : JsonVal)
    (h : status ≠ "complete") :
    onMessage prev ⟨status, output⟩ = prev := by
  unfold onMessage
  exact if_neg h

/-- C10 witness: the confirmed statement evaluated on a failed-status
message. -/
theorem c10_witness :
    ("failed" : String) ≠ "complete" ∧
    onMessage "old" ⟨"failed", .arr []⟩ = "old" :=
  ⟨by decide, c10_thm "old" "failed" (.arr []) (by decide)⟩
